import Mathlib

/-!
Shallow embedding of the push event handler of the merge-me-action
repository (src/eventHandlers/push/index.ts) together with the parts of
its environment the handler depends on, and proofs of the specified
properties of that code.

Modelling conventions:
* JavaScript `null`/`undefined` values are `Option.none`.
* A thrown JavaScript error is `Except.error (e : JsError)`.
* The two network operations (the graphql read and the merge mutation)
  are represented by `Effect` values collected in a trace, in the order
  the code performs them; their outcomes (a response, or a rejection)
  are passed in as explicit `Except` parameters.
* Log calls (`info` / `warning` / `error` from `@actions/core`) are also
  `Effect` values; the interpolated data of each message is carried
  structurally by a `LogMsg` constructor.
-/

/-- Mergeable state of a pull request: `'CONFLICTING' | 'MERGEABLE' | 'UNKNOWN'`
(field `mergeableState` of `PullRequestInformation`). -/
inductive MergeableState
  | CONFLICTING
  | MERGEABLE
  | UNKNOWN
deriving DecidableEq, Repr

/-- Lifecycle state of a pull request: `'CLOSED' | 'MERGED' | 'OPEN'`
(field `pullRequestState` of `PullRequestInformation`). -/
inductive PullRequestState
  | CLOSED
  | MERGED
  | OPEN
deriving DecidableEq, Repr

/-- State of one review:
`'APPROVED' | 'CHANGES_REQUESTED' | 'COMMENTED' | 'DISMISSED' | 'PENDING'`. -/
inductive ReviewState
  | APPROVED
  | CHANGES_REQUESTED
  | COMMENTED
  | DISMISSED
  | PENDING
deriving DecidableEq, Repr

/-- The `node` object of a review edge, carrying the review `state`. -/
structure ReviewNode where
  state : ReviewState
deriving DecidableEq, Repr

/-- One element of `reviewEdges`: an object with a `node` field. The array
elements themselves may be `undefined` in the TypeScript type, so the lists
below hold `Option ReviewEdge`. -/
structure ReviewEdge where
  node : ReviewNode
deriving DecidableEq, Repr

/-- The `PullRequestInformation` interface of the push handler. -/
structure PullRequestInformation where
  mergeableState : MergeableState
  merged : Bool
  pullRequestId : String
  pullRequestState : PullRequestState
  reviewEdges : List (Option ReviewEdge)
deriving DecidableEq, Repr

/-- A thrown JavaScript error: either a `TypeError` from accessing a
property of `null`/`undefined` or destructuring a failed regexp match, or
an error injected by the environment (a rejected graphql call). -/
inductive JsError
  | typeError
  | external (message : String)
deriving DecidableEq, Repr

/-- The three merge strategies the graph API offers. The selector below
never chooses `Rebase`; the variant exists because the mutation type
allows it. -/
inductive MergeStrategy
  | MergeCommit
  | Squash
  | Rebase
deriving DecidableEq, Repr

/-- Modelled from the spec: `mutationSelector` is imported from
`src/util`, which is not among the sources. Per the specification
(§4.3 MutationSelector) it maps a latest review edge whose state is
`APPROVED` to the merge-commit strategy and any other edge, including an
absent one, to the squash strategy. -/
def mutationSelector : Option ReviewEdge → MergeStrategy
  | some edge => if edge.node.state = ReviewState.APPROVED then .MergeCommit else .Squash
  | none => .Squash

/-- JavaScript indexing `l[0]` on an array whose elements may themselves be
`undefined`: yields `undefined` both for an empty array and for an
`undefined` first element. -/
def jsIndex0 {α : Type} (l : List (Option α)) : Option α :=
  l.headD none

/-- The last element of such an array, `l[l.length - 1]`; used only to state
the specification's `reviewEdges[last]` selection rule (§4.4 step 4), not by
the embedded code, which indexes position 0. -/
def jsIndexLast {α : Type} (l : List (Option α)) : Option α :=
  l.getLastD none

/-- Structured content of each log call the push handler makes, in source
order of appearance. -/
inductive LogMsg
  | notMergeable (state : MergeableState)
  | alreadyMerged
  | notOpen (state : PullRequestState)
  | notCreatedBy (gitHubLogin : String)
  | unableToFetch
  | foundInfo (information : PullRequestInformation)
deriving DecidableEq, Repr

/-- One observable action of the handler: a log call, the graphql read
(with the three query variables), or a merge mutation (with the selected
strategy and the two mutation variables `commitHeadline`,
`pullRequestId`). -/
inductive Effect
  | logInfo (message : LogMsg)
  | logWarning (message : LogMsg)
  | logError (e : JsError)
  | graphqlFetch (referenceName : String) (repositoryName : String) (repositoryOwner : String)
  | graphqlMutation (strategy : MergeStrategy) (commitHeadline : String) (pullRequestId : String)
deriving DecidableEq, Repr

/-- Line terminators that the JavaScript regexp atom `.` (with the `u`
flag and no `s` flag) does not match: LF, CR, LINE SEPARATOR, PARAGRAPH
SEPARATOR. -/
def isLineTerminator (c : Char) : Bool :=
  c = '\n' || c = '\r' || c = '\u2028' || c = '\u2029'

/-- Embedding of `COMMIT_HEADLINE_MATCHER = /^(?<commitHeadline>.*)[\s\S]*$/u`
applied to a message: the greedy `.*` captures the maximal prefix free of
line terminators, and `[\s\S]*$` always matches the remainder, so the match
never fails and the captured `commitHeadline` group is that prefix. -/
def commitHeadlineOf (message : String) : String :=
  ⟨message.data.takeWhile (fun c => !isLineTerminator c)⟩

/-- One entry of `context.payload.commits`: an object with a `message`. -/
structure Commit where
  message : String
deriving DecidableEq, Repr

/-- Embedding of `getCommitMessageHeadline`: reads
`context.payload.commits[0].message`, so it throws a `TypeError` when the
`commits` array is absent or empty, and otherwise returns the headline of
the first commit's message. The `commits` array is passed explicitly in
place of the ambient `context.payload`. -/
def getCommitMessageHeadline (commits : Option (List Commit)) : Except JsError String :=
  match commits with
  | none => .error .typeError
  | some [] => .error .typeError
  | some (c :: _) => .ok (commitHeadlineOf c.message)

/-- The characters of the fixed branch-reference pattern `refs/heads/`. -/
def refsHeadsChars : List Char :=
  "refs/heads/".data

/-- Embedding of `SHORT_REFERENCE_MATCHER = /^refs\/heads\/(?<name>.*)$/u`
applied to a string: with no `m` flag `$` matches only at the end of the
input and `.` matches no line terminator, so the match succeeds exactly
when the string is `refs/heads/` followed by characters none of which is a
line terminator, and the `name` group captures those characters. -/
def shortReferenceMatch (s : String) : Option String :=
  if refsHeadsChars.isPrefixOf s.data
      && (s.data.drop refsHeadsChars.length).all (fun c => !isLineTerminator c) then
    some ⟨s.data.drop refsHeadsChars.length⟩
  else
    none

/-- Embedding of `getReferenceName`: destructures the match of
`context.payload.ref` against `SHORT_REFERENCE_MATCHER`, so it throws a
`TypeError` (destructuring `groups` of `null`) when the match fails, and
otherwise returns the captured `name` group. The `ref` string is passed
explicitly in place of the ambient `context.payload`. -/
def getReferenceName (ref : String) : Except JsError String :=
  match shortReferenceMatch ref with
  | none => .error .typeError
  | some name => .ok name

/-- The object `{ reviews: { edges } }` of a fetched pull request node. -/
structure ReviewsConnection where
  edges : List (Option ReviewEdge)
deriving DecidableEq, Repr

/-- One node of the fetched `pullRequests.nodes` array, with the fields the
query requests. -/
structure PullRequestNode where
  id : String
  mergeable : MergeableState
  merged : Bool
  reviews : ReviewsConnection
  state : PullRequestState
deriving DecidableEq, Repr

/-- The `pullRequests` object of the graphql response; `none` models a
`null`/absent field, whose `.nodes` access throws. -/
structure PullRequestsConnection where
  nodes : List PullRequestNode
deriving DecidableEq, Repr

/-- The `repository` object of the graphql response; its `pullRequests`
field may be `null`/absent. -/
structure RepositoryResponse where
  pullRequests : Option PullRequestsConnection
deriving DecidableEq, Repr

/-- The top-level graphql response object; its `repository` field may be
`null`/absent. The response itself may also be `null`, modelled by
`Option GraphResponse` at the use sites. -/
structure GraphResponse where
  repository : Option RepositoryResponse
deriving DecidableEq, Repr

/-- Embedding of the body of `getPullRequestInformation` after the awaited
graphql read (the read itself is emitted as a `graphqlFetch` effect by
`pushHandleBody`, and its outcome is this function's argument): a `null`
response or an empty `nodes` array yields `undefined`; a non-null response
whose `repository` or `repository.pullRequests` is `null`/absent throws a
`TypeError` while evaluating `response.repository.pullRequests.nodes.length`;
otherwise the result is destructured from the first node. -/
def getPullRequestInformation (response : Option GraphResponse) :
    Except JsError (Option PullRequestInformation) :=
  match response with
  | none => .ok none
  | some r =>
    match r.repository with
    | none => .error .typeError
    | some repository =>
      match repository.pullRequests with
      | none => .error .typeError
      | some pullRequests =>
        match pullRequests.nodes with
        | [] => .ok none
        | node :: _ =>
          .ok (some
            { mergeableState := node.mergeable
              merged := node.merged
              pullRequestId := node.id
              pullRequestState := node.state
              reviewEdges := node.reviews.edges })

/-- Embedding of `tryMerge`. The argument `mutationResult` is the outcome
of the awaited merge mutation call, consulted only on the branch that
performs that call; the returned pair is the trace of effects and the
error the function propagates to its caller (`none` when it returns
normally). -/
def tryMerge (mutationResult : Except JsError Unit)
    (information : PullRequestInformation) (commitMessageHeadline : String) :
    List Effect × Option JsError :=
  if information.mergeableState ≠ MergeableState.MERGEABLE then
    ([Effect.logInfo (.notMergeable information.mergeableState)], none)
  else if information.merged then
    ([Effect.logInfo .alreadyMerged], none)
  else if information.pullRequestState ≠ PullRequestState.OPEN then
    ([Effect.logInfo (.notOpen information.pullRequestState)], none)
  else
    ([Effect.graphqlMutation (mutationSelector (jsIndex0 information.reviewEdges))
        commitMessageHeadline information.pullRequestId],
      match mutationResult with
      | .ok _ => none
      | .error e => some e)

/-- The fields of the push payload and of `context.repo` that the handler
reads; `commits` may be absent. -/
structure PushPayload where
  pusherName : String
  ref : String
  commits : Option (List Commit)
deriving DecidableEq, Repr

/-- The ambient `context.repo` pair. -/
structure RepoContext where
  owner : String
  repo : String
deriving DecidableEq, Repr

/-- Embedding of the `try` block of `pushHandle`: derives the reference
name (throwing before any network call on a malformed `ref`), performs the
graphql read, decodes it with `getPullRequestInformation`, logs a warning
on `undefined`, and otherwise logs the found information and calls
`tryMerge` with the parsed commit headline. The pair is the trace of
effects and the error the block raises (`none` when it completes). -/
def pushHandleBody (payload : PushPayload) (repo : RepoContext)
    (fetchResult : Except JsError (Option GraphResponse))
    (mutationResult : Except JsError Unit) : List Effect × Option JsError :=
  match getReferenceName payload.ref with
  | .error e => ([], some e)
  | .ok referenceName =>
    match fetchResult with
    | .error e => ([Effect.graphqlFetch referenceName repo.repo repo.owner], some e)
    | .ok response =>
      match getPullRequestInformation response with
      | .error e => ([Effect.graphqlFetch referenceName repo.repo repo.owner], some e)
      | .ok none =>
        ([Effect.graphqlFetch referenceName repo.repo repo.owner,
          Effect.logWarning .unableToFetch], none)
      | .ok (some information) =>
        match getCommitMessageHeadline payload.commits with
        | .error e =>
          ([Effect.graphqlFetch referenceName repo.repo repo.owner,
            Effect.logInfo (.foundInfo information)], some e)
        | .ok commitMessageHeadline =>
          let merged := tryMerge mutationResult information commitMessageHeadline
          ([Effect.graphqlFetch referenceName repo.repo repo.owner,
            Effect.logInfo (.foundInfo information)] ++ merged.1, merged.2)

/-- Embedding of `pushHandle`: the identity gate precedes the `try` block
and returns after one info log on a mismatch; the `try` block's error, if
any, is caught and logged at error level. The second component is the
error `pushHandle` propagates to its caller, `none` on every path. -/
def pushHandle (gitHubLogin : String) (payload : PushPayload) (repo : RepoContext)
    (fetchResult : Except JsError (Option GraphResponse))
    (mutationResult : Except JsError Unit) : List Effect × Option JsError :=
  if payload.pusherName ≠ gitHubLogin then
    ([Effect.logInfo (.notCreatedBy gitHubLogin)], none)
  else
    match pushHandleBody payload repo fetchResult mutationResult with
    | (effects, none) => (effects, none)
    | (effects, some e) => (effects ++ [Effect.logError e], none)

/-- Recognizer for merge mutation effects. -/
def isMutationEffect : Effect → Bool
  | .graphqlMutation .. => true
  | _ => false

/-- Recognizer for graphql read effects. -/
def isFetchEffect : Effect → Bool
  | .graphqlFetch .. => true
  | _ => false

/-- Recognizer for info-level log effects. -/
def isInfoLogEffect : Effect → Bool
  | .logInfo _ => true
  | _ => false

/-- Number of merge mutation calls in a trace. -/
def mutationCount (trace : List Effect) : Nat :=
  (trace.filter isMutationEffect).length

/-- Number of graphql read calls in a trace. -/
def fetchCount (trace : List Effect) : Nat :=
  (trace.filter isFetchEffect).length

/-- Number of info-level log calls in a trace. -/
def infoLogCount (trace : List Effect) : Nat :=
  (trace.filter isInfoLogEffect).length

/-- C2: over the full 3×2×3 space of mergeable state, merged flag and
lifecycle state, `tryMerge` issues no merge mutation whenever the
mergeable state is not `MERGEABLE`, or the pull request is merged, or its
state is not `OPEN`. -/
theorem tryMerge_no_mutation_when_ineligible
    (ms : MergeableState) (m : Bool) (ps : PullRequestState)
    (h : ¬(ms = MergeableState.MERGEABLE ∧ m = false ∧ ps = PullRequestState.OPEN)) :
    ∀ (id : String) (edges : List (Option ReviewEdge)) (hdl : String)
      (mutationResult : Except JsError Unit),
      mutationCount (tryMerge mutationResult ⟨ms, m, id, ps, edges⟩ hdl).1 = 0 := by
  intro id edges hdl mutationResult
  cases ms <;> cases m <;> cases ps <;>
    simp_all [tryMerge, mutationCount, isMutationEffect, List.filter]

theorem tryMerge_no_mutation_when_ineligible_witness :
    mutationCount
      (tryMerge (.ok ()) ⟨.CONFLICTING, true, "id", .CLOSED, []⟩ "headline").1 = 0 :=
  tryMerge_no_mutation_when_ineligible .CONFLICTING true .CLOSED (by decide)
    "id" [] "headline" (.ok ())

/-- C3: `tryMerge` issues exactly one merge mutation when the pull request
is mergeable, unmerged and open — with exactly the pull request's id and
the supplied commit headline as arguments — and zero mutations on every
other branch. -/
theorem tryMerge_eligible_exactly_one_mutation
    (mutationResult : Except JsError Unit)
    (information : PullRequestInformation) (hdl : String) :
    mutationCount (tryMerge mutationResult information hdl).1 =
      (if information.mergeableState = MergeableState.MERGEABLE ∧
          information.merged = false ∧
          information.pullRequestState = PullRequestState.OPEN then 1 else 0)
    ∧ (information.mergeableState = MergeableState.MERGEABLE →
        information.merged = false →
        information.pullRequestState = PullRequestState.OPEN →
        (tryMerge mutationResult information hdl).1 =
          [Effect.graphqlMutation (mutationSelector (jsIndex0 information.reviewEdges))
            hdl information.pullRequestId]) := by
  obtain ⟨ms, m, id, ps, edges⟩ := information
  cases ms <;> cases m <;> cases ps <;>
    simp [tryMerge, mutationCount, isMutationEffect, List.filter]

theorem tryMerge_eligible_exactly_one_mutation_witness :
    (tryMerge (.ok ()) ⟨.MERGEABLE, false, "id", .OPEN, []⟩ "headline").1 =
      [Effect.graphqlMutation
        (mutationSelector (jsIndex0 ([] : List (Option ReviewEdge)))) "headline" "id"] :=
  (tryMerge_eligible_exactly_one_mutation (.ok ())
    ⟨.MERGEABLE, false, "id", .OPEN, []⟩ "headline").2 rfl rfl rfl

/-- C8: the skip checks run in the order mergeability, merged flag, open
state: a non-mergeable input always reports the not-mergeable reason
naming its mergeable state, the already-merged reason is reported only
when the state is `MERGEABLE` and the flag is set, and the not-open reason
only when additionally the flag is clear. -/
theorem tryMerge_skip_reason_order
    (mutationResult : Except JsError Unit)
    (information : PullRequestInformation) (hdl : String) :
    (information.mergeableState ≠ MergeableState.MERGEABLE →
      (tryMerge mutationResult information hdl).1 =
        [Effect.logInfo (.notMergeable information.mergeableState)])
    ∧ ((tryMerge mutationResult information hdl).1 =
          [Effect.logInfo LogMsg.alreadyMerged] →
        information.mergeableState = MergeableState.MERGEABLE ∧
        information.merged = true)
    ∧ (∀ s, (tryMerge mutationResult information hdl).1 =
          [Effect.logInfo (.notOpen s)] →
        information.mergeableState = MergeableState.MERGEABLE ∧
        information.merged = false ∧
        information.pullRequestState = s ∧ s ≠ PullRequestState.OPEN) := by
  obtain ⟨ms, m, id, ps, edges⟩ := information
  cases ms <;> cases m <;> cases ps <;> simp [tryMerge]

theorem tryMerge_skip_reason_order_witness :
    (tryMerge (.ok ()) ⟨.CONFLICTING, true, "id", .CLOSED, []⟩ "headline").1 =
      [Effect.logInfo (.notMergeable .CONFLICTING)] :=
  (tryMerge_skip_reason_order (.ok ())
    ⟨.CONFLICTING, true, "id", .CLOSED, []⟩ "headline").1 (by decide)

/-- C1 counterexample: on a mergeable, unmerged, open pull request whose
review edges are a changes-requested review followed (newest-last) by an
approving review, `tryMerge` issues the squash mutation — the selector
applied to `reviewEdges[0]` — while the selector applied to the last
review edge yields the merge-commit strategy, so the strategy is not
selected on the last edge. -/
theorem tryMerge_last_edge_counterexample :
    (tryMerge (.ok ()) ⟨.MERGEABLE, false, "id1", .OPEN,
        [some ⟨⟨.CHANGES_REQUESTED⟩⟩, some ⟨⟨.APPROVED⟩⟩]⟩ "headline").1 =
      [Effect.graphqlMutation MergeStrategy.Squash ("headline") ("id1")]
    ∧ mutationSelector (jsIndexLast
        [some ⟨⟨ReviewState.CHANGES_REQUESTED⟩⟩, some ⟨⟨ReviewState.APPROVED⟩⟩]) =
      MergeStrategy.MergeCommit
    ∧ MergeStrategy.Squash ≠ MergeStrategy.MergeCommit := by
  decide

/-- C1 amended: on every eligible pull request `tryMerge` selects the
merge strategy by applying the mutation selector to `reviewEdges[0]`, the
first element of the review edges (undefined for an empty array). -/
theorem tryMerge_selects_on_first_edge
    (mutationResult : Except JsError Unit)
    (information : PullRequestInformation) (hdl : String)
    (h1 : information.mergeableState = MergeableState.MERGEABLE)
    (h2 : information.merged = false)
    (h3 : information.pullRequestState = PullRequestState.OPEN) :
    (tryMerge mutationResult information hdl).1 =
      [Effect.graphqlMutation (mutationSelector (jsIndex0 information.reviewEdges))
        hdl information.pullRequestId] := by
  simp [tryMerge, h1, h2, h3]

theorem tryMerge_selects_on_first_edge_witness :
    (tryMerge (.ok ()) ⟨.MERGEABLE, false, "id1", .OPEN,
        [some ⟨⟨.CHANGES_REQUESTED⟩⟩, some ⟨⟨.APPROVED⟩⟩]⟩ "headline").1 =
      [Effect.graphqlMutation
        (mutationSelector (jsIndex0
          [some ⟨⟨ReviewState.CHANGES_REQUESTED⟩⟩, some ⟨⟨ReviewState.APPROVED⟩⟩]))
        "headline" "id1"] :=
  tryMerge_selects_on_first_edge (.ok ())
    ⟨.MERGEABLE, false, "id1", .OPEN,
      [some ⟨⟨.CHANGES_REQUESTED⟩⟩, some ⟨⟨.APPROVED⟩⟩]⟩ "headline" rfl rfl rfl

/-- C5: when the pusher's login differs from the configured login,
`pushHandle` performs no graphql read and no mutation and emits exactly
one info-level log, whatever the rest of the payload and the environment
would have answered. -/
theorem pushHandle_identity_gate
    (gitHubLogin : String) (payload : PushPayload) (repo : RepoContext)
    (fetchResult : Except JsError (Option GraphResponse))
    (mutationResult : Except JsError Unit)
    (h : payload.pusherName ≠ gitHubLogin) :
    pushHandle gitHubLogin payload repo fetchResult mutationResult =
      ([Effect.logInfo (.notCreatedBy gitHubLogin)], none)
    ∧ fetchCount (pushHandle gitHubLogin payload repo fetchResult mutationResult).1 = 0
    ∧ mutationCount (pushHandle gitHubLogin payload repo fetchResult mutationResult).1 = 0
    ∧ infoLogCount (pushHandle gitHubLogin payload repo fetchResult mutationResult).1 = 1 := by
  simp [pushHandle, h, fetchCount, mutationCount, infoLogCount,
    isFetchEffect, isMutationEffect, isInfoLogEffect, List.filter]

theorem pushHandle_identity_gate_witness :
    pushHandle ("bot") ⟨"alice", "refs/heads/x", none⟩ ⟨"own", "rep"⟩ (.ok none) (.ok ()) =
      ([Effect.logInfo (.notCreatedBy ("bot"))], none) :=
  (pushHandle_identity_gate ("bot") ⟨"alice", "refs/heads/x", none⟩ ⟨"own", "rep"⟩
    (.ok none) (.ok ()) (by decide)).1

/-- C4: `pushHandle` propagates no error to its caller on any input, and
every error its `try` block raises — a parse, fetch, decode or mutation
failure — is caught and appended to the trace as one error-level log. -/
theorem pushHandle_error_boundary
    (gitHubLogin : String) (payload : PushPayload) (repo : RepoContext)
    (fetchResult : Except JsError (Option GraphResponse))
    (mutationResult : Except JsError Unit) :
    (pushHandle gitHubLogin payload repo fetchResult mutationResult).2 = none
    ∧ ∀ e, (pushHandleBody payload repo fetchResult mutationResult).2 = some e →
        payload.pusherName = gitHubLogin →
        pushHandle gitHubLogin payload repo fetchResult mutationResult =
          ((pushHandleBody payload repo fetchResult mutationResult).1 ++
            [Effect.logError e], none) := by
  constructor
  · by_cases hp : payload.pusherName ≠ gitHubLogin
    · simp [pushHandle, hp]
    · rcases hbody : pushHandleBody payload repo fetchResult mutationResult with ⟨effects, oe⟩
      cases oe <;> simp [pushHandle, hp, hbody]
  · intro e he hlogin
    rcases hbody : pushHandleBody payload repo fetchResult mutationResult with ⟨effects, oe⟩
    rw [hbody] at he
    simp at he
    subst he
    simp [pushHandle, hlogin, hbody]

theorem pushHandle_error_boundary_witness :
    pushHandle ("bot") ⟨"bot", "refs/tags/v1", none⟩ ⟨"own", "rep"⟩ (.ok none) (.ok ()) =
      ((pushHandleBody ⟨"bot", "refs/tags/v1", none⟩ ⟨"own", "rep"⟩
          (.ok none) (.ok ())).1 ++ [Effect.logError JsError.typeError], none) :=
  (pushHandle_error_boundary ("bot") ⟨"bot", "refs/tags/v1", none⟩ ⟨"own", "rep"⟩
    (.ok none) (.ok ())).2 JsError.typeError rfl rfl

/-- Helper: any merge mutation effect in a `tryMerge` trace carries the
selector applied to the first review edge, the supplied headline, and the
pull request's id. -/
theorem mem_tryMerge_mutation {mutationResult : Except JsError Unit}
    {information : PullRequestInformation} {hdl : String}
    {st : MergeStrategy} {h pid : String}
    (hmem : Effect.graphqlMutation st h pid ∈ (tryMerge mutationResult information hdl).1) :
    st = mutationSelector (jsIndex0 information.reviewEdges) ∧
      h = hdl ∧ pid = information.pullRequestId := by
  obtain ⟨ms, m, id, ps, edges⟩ := information
  cases ms <;> cases m <;> cases ps <;> simp_all [tryMerge]

/-- Helper: any merge mutation effect in a `pushHandleBody` trace carries
the headline of the first commit of the payload's commits array, which is
therefore present and non-empty. -/
theorem mem_body_mutation_headline {payload : PushPayload} {repo : RepoContext}
    {fetchResult : Except JsError (Option GraphResponse)}
    {mutationResult : Except JsError Unit} {st : MergeStrategy} {h pid : String}
    (hmem : Effect.graphqlMutation st h pid ∈
      (pushHandleBody payload repo fetchResult mutationResult).1) :
    ∃ c rest, payload.commits = some (c :: rest) ∧ h = commitHeadlineOf c.message := by
  unfold pushHandleBody at hmem
  split at hmem
  · simp at hmem
  · split at hmem
    · simp at hmem
    · split at hmem
      · simp at hmem
      · simp at hmem
      · rename_i information heq
        split at hmem
        · simp at hmem
        · rename_i hdl hheadline
          simp at hmem
          have hargs := mem_tryMerge_mutation hmem
          rcases hc : payload.commits with _ | cl
          · rw [hc] at hheadline
            exact absurd hheadline (by simp [getCommitMessageHeadline])
          · rcases cl with _ | ⟨c, rest⟩
            · rw [hc] at hheadline
              exact absurd hheadline (by simp [getCommitMessageHeadline])
            · rw [hc] at hheadline
              refine ⟨c, rest, rfl, ?_⟩
              have hh : commitHeadlineOf c.message = hdl := by
                simpa [getCommitMessageHeadline] using hheadline
              exact hargs.2.1.trans hh.symm

/-- C9: the commit headline is taken from `commits[0]`: for a non-empty
commits array the parser returns the first commit's headline, unchanged by
whatever follows it; an empty or absent array makes it throw; and every
merge mutation `pushHandle` issues carries the first commit's headline. -/
theorem commitHeadline_from_first_commit :
    (∀ (c : Commit) (rest : List Commit),
      getCommitMessageHeadline (some (c :: rest)) = .ok (commitHeadlineOf c.message))
    ∧ (∀ (c : Commit) (rest rest' : List Commit),
        getCommitMessageHeadline (some (c :: rest)) =
          getCommitMessageHeadline (some (c :: rest')))
    ∧ getCommitMessageHeadline (some []) = .error JsError.typeError
    ∧ getCommitMessageHeadline none = .error JsError.typeError
    ∧ (∀ (gitHubLogin : String) (payload : PushPayload) (repo : RepoContext)
        (fetchResult : Except JsError (Option GraphResponse))
        (mutationResult : Except JsError Unit) (st : MergeStrategy) (h pid : String),
        Effect.graphqlMutation st h pid ∈
          (pushHandle gitHubLogin payload repo fetchResult mutationResult).1 →
        ∃ c rest, payload.commits = some (c :: rest) ∧ h = commitHeadlineOf c.message) := by
  refine ⟨fun c rest => rfl, fun c rest rest' => rfl, rfl, rfl, ?_⟩
  intro gitHubLogin payload repo fetchResult mutationResult st h pid hmem
  unfold pushHandle at hmem
  split at hmem
  · simp at hmem
  · split at hmem
    · rename_i effects heq
      have hmem' : Effect.graphqlMutation st h pid ∈
          (pushHandleBody payload repo fetchResult mutationResult).1 := by
        rw [heq]
        simpa using hmem
      exact mem_body_mutation_headline hmem'
    · rename_i effects e heq
      have hmem' : Effect.graphqlMutation st h pid ∈
          (pushHandleBody payload repo fetchResult mutationResult).1 := by
        rw [heq]
        simpa using hmem
      exact mem_body_mutation_headline hmem'

theorem commitHeadline_from_first_commit_witness :
    ∃ c rest,
      (some [Commit.mk ("abc\ndef"), Commit.mk ("zzz")] : Option (List Commit)) =
        some (c :: rest) ∧ "abc" = commitHeadlineOf c.message :=
  commitHeadline_from_first_commit.2.2.2.2 ("bot")
    ⟨"bot", "refs/heads/x", some [Commit.mk ("abc\ndef"), Commit.mk ("zzz")]⟩
    ⟨"own", "rep"⟩
    (.ok (some ⟨some ⟨some ⟨[⟨"nid", .MERGEABLE, false, ⟨[]⟩, .OPEN⟩]⟩⟩⟩))
    (.ok ()) .Squash ("abc") ("nid") (by decide)

/-- C10: the fetched-information decoder yields the not-found result
exactly for a null response or an empty nodes array; a non-null response
with a null `repository` or `repository.pullRequests` makes it throw; and
with a first node present the result is built from that node alone. -/
theorem getPullRequestInformation_cases (response : Option GraphResponse) :
    (getPullRequestInformation response = .ok none ↔
      response = none ∨ ∃ r repository pullRequests,
        response = some r ∧ r.repository = some repository ∧
        repository.pullRequests = some pullRequests ∧ pullRequests.nodes = [])
    ∧ (∀ r, response = some r → r.repository = none →
        getPullRequestInformation response = .error JsError.typeError)
    ∧ (∀ r repository, response = some r → r.repository = some repository →
        repository.pullRequests = none →
        getPullRequestInformation response = .error JsError.typeError)
    ∧ (∀ r repository pullRequests node rest, response = some r →
        r.repository = some repository →
        repository.pullRequests = some pullRequests →
        pullRequests.nodes = node :: rest →
        getPullRequestInformation response = .ok (some
          { mergeableState := node.mergeable
            merged := node.merged
            pullRequestId := node.id
            pullRequestState := node.state
            reviewEdges := node.reviews.edges })) := by
  refine ⟨?_, ?_, ?_, ?_⟩
  · rcases response with _ | ⟨_ | ⟨_ | ⟨_ | ⟨node, rest⟩⟩⟩⟩ <;>
      simp [getPullRequestInformation]
  · intro r hr hrep
    subst hr
    simp [getPullRequestInformation, hrep]
  · intro r repository hr hrep hpr
    subst hr
    simp [getPullRequestInformation, hrep, hpr]
  · intro r repository pullRequests node rest hr hrep hpr hnodes
    subst hr
    simp [getPullRequestInformation, hrep, hpr, hnodes]

theorem getPullRequestInformation_cases_witness :
    getPullRequestInformation
        (some ⟨some ⟨some ⟨[PullRequestNode.mk ("nid") .MERGEABLE false ⟨[]⟩ .OPEN]⟩⟩⟩) =
      .ok (some
        { mergeableState := MergeableState.MERGEABLE
          merged := false
          pullRequestId := "nid"
          pullRequestState := PullRequestState.OPEN
          reviewEdges := [] }) :=
  (getPullRequestInformation_cases
      (some ⟨some ⟨some ⟨[PullRequestNode.mk ("nid") .MERGEABLE false ⟨[]⟩ .OPEN]⟩⟩⟩)).2.2.2
    ⟨some ⟨some ⟨[PullRequestNode.mk ("nid") .MERGEABLE false ⟨[]⟩ .OPEN]⟩⟩⟩
    ⟨some ⟨[PullRequestNode.mk ("nid") .MERGEABLE false ⟨[]⟩ .OPEN]⟩⟩
    ⟨[PullRequestNode.mk ("nid") .MERGEABLE false ⟨[]⟩ .OPEN]⟩
    (PullRequestNode.mk ("nid") .MERGEABLE false ⟨[]⟩ .OPEN) [] rfl rfl rfl rfl

/-- Helper: the characters of `refs/heads/` followed by a string. -/
theorem data_refsHeads_append (suffix : String) :
    ("refs/heads/" ++ suffix).data = refsHeadsChars ++ suffix.data := by
  rw [String.data_append]
  rfl

/-- Helper: a list is a prefix of itself followed by anything. -/
theorem isPrefixOf_append_self (l m : List Char) : l.isPrefixOf (l ++ m) = true := by
  rw [ List.isPrefixOf_iff_prefix]
  exact List.prefix_append l m

/-- C6 counterexample: `refs/heads/a\nb` is `refs/heads/` followed by the
suffix `a\nb`, yet the reference-name parser throws on it instead of
returning that suffix, because the regexp atom `.` matches no line
terminator. -/
theorem getReferenceName_newline_counterexample :
    ("refs/heads/a\nb" : String) = "refs/heads/" ++ "a\nb"
    ∧ getReferenceName ("refs/heads/" ++ "a\nb") ≠ .ok ("a\nb")
    ∧ getReferenceName ("refs/heads/" ++ "a\nb") = .error JsError.typeError := by
  refine ⟨rfl, ?_, rfl⟩
  intro h
  have heval : getReferenceName ("refs/heads/" ++ "a\nb") = .error JsError.typeError := rfl
  exact Except.noConfusion (heval.symm.trans h)

/-- C6 amended: the parser returns exactly the suffix for every reference
of the form `refs/heads/` followed by a suffix free of line terminators,
and throws on every other reference string — one lacking the prefix or
holding a line terminator after it. -/
theorem getReferenceName_amended :
    (∀ suffix : String, suffix.data.all (fun c => !isLineTerminator c) = true →
      getReferenceName ("refs/heads/" ++ suffix) = .ok suffix)
    ∧ (∀ s : String,
        (¬ ∃ suffix : String, s = "refs/heads/" ++ suffix ∧
            suffix.data.all (fun c => !isLineTerminator c) = true) →
        getReferenceName s = .error JsError.typeError) := by
  constructor
  · intro suffix hclean
    unfold getReferenceName shortReferenceMatch
    rw [data_refsHeads_append, isPrefixOf_append_self, List.drop_left, hclean]
    rfl
  · intro s hno
    obtain ⟨sd⟩ := s
    unfold getReferenceName shortReferenceMatch
    by_cases hp : refsHeadsChars.isPrefixOf (String.mk sd).data
    · obtain ⟨t, ht⟩ := List.isPrefixOf_iff_prefix.mp hp
      by_cases hclean : t.all (fun c => !isLineTerminator c) = true
      · exfalso
        apply hno
        refine ⟨⟨t⟩, ?_, hclean⟩
        show String.mk sd = "refs/heads/" ++ ⟨t⟩
        calc String.mk sd = ⟨refsHeadsChars ++ t⟩ := by rw [ht]
          _ = "refs/heads/" ++ ⟨t⟩ := rfl
      · have hsd : (String.mk sd).data = refsHeadsChars ++ t := by rw [ht]
        rw [hsd, List.drop_left]
        simp [hclean]
    · simp [hp]

theorem getReferenceName_amended_witness :
    getReferenceName ("refs/heads/" ++ "feature/x") = .ok ("feature/x") :=
  getReferenceName_amended.1 ("feature/x") (by decide)

/-- Helper: when `dropWhile` leaves a non-empty list its head fails the
predicate. -/
theorem dropWhile_head_false (p : Char → Bool) (l : List Char) (c : Char)
    (t : List Char) (h : l.dropWhile p = c :: t) : p c = false := by
  induction l with
  | nil => simp [List.dropWhile] at h
  | cons a l ih =>
    rw [List.dropWhile_cons] at h
    by_cases hpa : p a = true
    · rw [if_pos hpa] at h
      exact ih h
    · rw [if_neg hpa] at h
      injection h with h1 h2
      subst h1
      exact Bool.eq_false_iff.mpr hpa

/-- C7: the commit-headline parser keeps exactly the text before the first
line terminator — its result has no line terminator and the message is
that result followed by nothing or by a remainder starting with a line
terminator — and it is idempotent, fixing every message without a line
terminator and in particular its own output. -/
theorem commitHeadline_first_line (m : String) :
    (commitHeadlineOf m).data.all (fun c => !isLineTerminator c) = true
    ∧ (∃ rest : List Char, m.data = (commitHeadlineOf m).data ++ rest ∧
        (rest = [] ∨ ∃ c rest', rest = c :: rest' ∧ isLineTerminator c = true))
    ∧ (m.data.all (fun c => !isLineTerminator c) = true → commitHeadlineOf m = m)
    ∧ commitHeadlineOf (commitHeadlineOf m) = commitHeadlineOf m := by
  refine ⟨?_, ?_, ?_, ?_⟩
  · show (m.data.takeWhile (fun c => !isLineTerminator c)).all
      (fun c => !isLineTerminator c) = true
    rw [List.all_eq_true]
    intro x hx
    simpa using List.mem_takeWhile_imp hx
  · refine ⟨m.data.dropWhile (fun c => !isLineTerminator c), ?_, ?_⟩
    · exact (List.takeWhile_append_dropWhile (fun c => !isLineTerminator c) m.data).symm
    · rcases hd : m.data.dropWhile (fun c => !isLineTerminator c) with _ | ⟨c, t⟩
      · exact Or.inl rfl
      · refine Or.inr ⟨c, t, rfl, ?_⟩
        have hc := dropWhile_head_false (fun c => !isLineTerminator c) m.data c t hd
        simpa using hc
  · intro hall
    have hself : m.data.takeWhile (fun c => !isLineTerminator c) = m.data := by
      apply List.takeWhile_eq_self_iff.mpr
      intro x hx
      simpa using List.all_eq_true.mp hall x hx
    show String.mk (m.data.takeWhile (fun c => !isLineTerminator c)) = m
    rw [hself]
  · show String.mk ((m.data.takeWhile (fun c => !isLineTerminator c)).takeWhile
        (fun c => !isLineTerminator c)) =
      String.mk (m.data.takeWhile (fun c => !isLineTerminator c))
    rw [List.takeWhile_idem]

theorem commitHeadline_first_line_witness :
    commitHeadlineOf ("abc") = "abc" :=
  (commitHeadline_first_line ("abc")).2.2.1 (by decide)
